import Mathlib

/-!
Verification of `notionctl`'s resilient transport, change-query drain and
watch reconciler against the repository specification.

The Go source is shallowly embedded:

* byte strings (`[]byte`, `string` holding raw bytes) become `List ℕ` with
  each entry a byte value;
* `time.Time` and `time.Duration` become `ℤ` (nanoseconds) where only
  ordering and arithmetic matter, and `ℚ` where Go mixes `float64`
  arithmetic into durations (the backoff computation) — `float64`
  rounding is idealised as exact rational arithmetic;
* stateful loops (`executeWithRetries`, `fetchChanges`, the watch runtime)
  become explicit recursions over the attempt / iteration counter with the
  environment (HTTP responses, remote query pages, jitter draws,
  cancellation) supplied as explicit functions of the step index;
* `context.Context` cancellation becomes an optional step index from which
  the context reads as done.
-/

namespace Cmd

/-! ## SHA-256, embedded from the semantics of Go's `crypto/sha256`

`syncWatchOptions.verifySignature` (cmd/sync_watch.go) computes
`hex(HMAC-SHA256(secret, timestamp ++ body))` via the standard library.
The hash is embedded here over byte lists, with 32-bit words as `ℕ`
reduced mod `2^32`. -/

/-- Reduce to a 32-bit word, as Go's `uint32` arithmetic does implicitly. -/
def w32 (n : ℕ) : ℕ := n % 4294967296

/-- Rotate a 32-bit word right by `k`. -/
def rotr (k n : ℕ) : ℕ := w32 ((n >>> k) ||| (n <<< (32 - k)))

/-- SHA-256 `Ch` function. `4294967295 ^^^ x` is 32-bit complement. -/
def shaCh (x y z : ℕ) : ℕ := (x &&& y) ^^^ ((4294967295 ^^^ x) &&& z)

/-- SHA-256 `Maj` function. -/
def shaMaj (x y z : ℕ) : ℕ := (x &&& y) ^^^ (x &&& z) ^^^ (y &&& z)

/-- SHA-256 Σ₀. -/
def bigSigma0 (x : ℕ) : ℕ := rotr 2 x ^^^ rotr 13 x ^^^ rotr 22 x

/-- SHA-256 Σ₁. -/
def bigSigma1 (x : ℕ) : ℕ := rotr 6 x ^^^ rotr 11 x ^^^ rotr 25 x

/-- SHA-256 σ₀. -/
def smallSigma0 (x : ℕ) : ℕ := rotr 7 x ^^^ rotr 18 x ^^^ (x >>> 3)

/-- SHA-256 σ₁. -/
def smallSigma1 (x : ℕ) : ℕ := rotr 17 x ^^^ rotr 19 x ^^^ (x >>> 10)

/-- The 64 SHA-256 round constants. -/
def sha256K : List ℕ :=
  [1116352408, 1899447441, 3049323471, 3921009573, 961987163, 1508970993,
   2453635748, 2870763221, 3624381080, 310598401, 607225278, 1426881987,
   1925078388, 2162078206, 2614888103, 3248222580, 3835390401, 4022224774,
   264347078, 604807628, 770255983, 1249150122, 1555081692, 1996064986,
   2554220882, 2821834349, 2952996808, 3210313671, 3336571891, 3584528711,
   113926993, 338241895, 666307205, 773529912, 1294757372, 1396182291,
   1695183700, 1986661051, 2177026350, 2456956037, 2730485921, 2820302411,
   3259730800, 3345764771, 3516065817, 3600352804, 4094571909, 275423344,
   430227734, 506948616, 659060556, 883997877, 958139571, 1322822218,
   1537002063, 1747873779, 1955562222, 2024104815, 2227730452, 2361852424,
   2428436474, 2756734187, 3204031479, 3329325298]

/-- The eight working variables of a SHA-256 compression, `a` through `h`. -/
structure Hash8 where
  a : ℕ
  b : ℕ
  c : ℕ
  d : ℕ
  e : ℕ
  f : ℕ
  g : ℕ
  h : ℕ
deriving DecidableEq

/-- SHA-256 initial hash value. -/
def sha256H0 : Hash8 :=
  ⟨1779033703, 3144134277, 1013904242, 2773480762,
   1359893119, 2600822924, 528734635, 1541459225⟩

/-- The next message-schedule word from the 16 most recent ones. -/
def scheduleNext (ws : List ℕ) : ℕ :=
  let n := ws.length
  w32 (smallSigma1 (ws.getD (n - 2) 0) + ws.getD (n - 7) 0 +
       smallSigma0 (ws.getD (n - 15) 0) + ws.getD (n - 16) 0)

/-- Extend the message schedule by `k` further words. -/
def extendSchedule : ℕ → List ℕ → List ℕ
  | 0, ws => ws
  | k + 1, ws => extendSchedule k (ws ++ [scheduleNext ws])

/-- One SHA-256 round with round constant `kc` and schedule word `wc`. -/
def sha256Round (s : Hash8) (kc wc : ℕ) : Hash8 :=
  let t1 := w32 (s.h + bigSigma1 s.e + shaCh s.e s.f s.g + kc + wc)
  let t2 := w32 (bigSigma0 s.a + shaMaj s.a s.b s.c)
  ⟨w32 (t1 + t2), s.a, s.b, s.c, w32 (s.d + t1), s.e, s.f, s.g⟩

/-- Compress one 16-word block into the running hash state. -/
def sha256Compress (s : Hash8) (block : List ℕ) : Hash8 :=
  let ws := extendSchedule 48 block
  let t := (sha256K.zip ws).foldl (fun st p => sha256Round st p.1 p.2) s
  ⟨w32 (s.a + t.a), w32 (s.b + t.b), w32 (s.c + t.c), w32 (s.d + t.d),
   w32 (s.e + t.e), w32 (s.f + t.f), w32 (s.g + t.g), w32 (s.h + t.h)⟩

/-- Big-endian bytes of a 64-bit message length. -/
def lenBytesBE (n : ℕ) : List ℕ :=
  [n >>> 56 % 256, n >>> 48 % 256, n >>> 40 % 256, n >>> 32 % 256,
   n >>> 24 % 256, n >>> 16 % 256, n >>> 8 % 256, n % 256]

/-- Big-endian bytes of one 32-bit word. -/
def wordBytesBE (w : ℕ) : List ℕ :=
  [w >>> 24 % 256, w >>> 16 % 256, w >>> 8 % 256, w % 256]

/-- Group a byte list into big-endian 32-bit words (groups of four). -/
def toWordsBE : List ℕ → List ℕ
  | b0 :: b1 :: b2 :: b3 :: rest =>
      ((b0 <<< 24) ||| (b1 <<< 16) ||| (b2 <<< 8) ||| b3) :: toWordsBE rest
  | _ => []

/-- Split a byte list into 16-word (64-byte) blocks; the fuel bounds the
number of 64-byte steps and is instantiated with the list's own length,
which always suffices. -/
def toBlocksAux : ℕ → List ℕ → List (List ℕ)
  | 0, _ => []
  | fuel + 1, l =>
    if l.isEmpty then [] else toWordsBE (l.take 64) :: toBlocksAux fuel (l.drop 64)

/-- Split a padded byte list into 16-word (64-byte) blocks. -/
def toBlocks (l : List ℕ) : List (List ℕ) := toBlocksAux l.length l

/-- SHA-256 padding: `0x80`, zeros, then the 64-bit bit length. -/
def sha256Pad (msg : List ℕ) : List ℕ :=
  let L := msg.length
  let zeros := (64 - (L + 9) % 64) % 64
  msg ++ [128] ++ List.replicate zeros 0 ++ lenBytesBE (8 * L)

/-- SHA-256 of a byte list, as a 32-byte list. -/
def sha256 (msg : List ℕ) : List ℕ :=
  let fin := (toBlocks (sha256Pad msg)).foldl sha256Compress sha256H0
  wordBytesBE fin.a ++ wordBytesBE fin.b ++ wordBytesBE fin.c ++
  wordBytesBE fin.d ++ wordBytesBE fin.e ++ wordBytesBE fin.f ++
  wordBytesBE fin.g ++ wordBytesBE fin.h

/-- HMAC key normalised to the 64-byte block size (Go `crypto/hmac`). -/
def hmacKeyPad (key : List ℕ) : List ℕ :=
  let k := if 64 < key.length then sha256 key else key
  k ++ List.replicate (64 - k.length) 0

/-- HMAC-SHA256 over byte lists (Go `hmac.New(sha256.New, key)`). -/
def hmacSha256 (key msg : List ℕ) : List ℕ :=
  let k := hmacKeyPad key
  let ipad := k.map (fun b => b ^^^ 54)
  let opad := k.map (fun b => b ^^^ 92)
  sha256 (opad ++ sha256 (ipad ++ msg))

/-- Lowercase hex digit byte for a value below 16 (Go `encoding/hex`). -/
def hexDigit (n : ℕ) : ℕ := if n < 10 then 48 + n else 87 + n

/-- The two hex digit bytes of one byte. -/
def hexByte (b : ℕ) : List ℕ := [hexDigit (b / 16), hexDigit (b % 16)]

/-- Lowercase hex encoding of a byte list (Go `hex.EncodeToString`). -/
def hexEncode (bs : List ℕ) : List ℕ := (bs.map hexByte).flatten

/-! ## Webhook receiver (cmd/sync_watch.go)

`syncWatchOptions.webhookHandler`, `verifySignature` and `readWebhookBody`,
embedded over byte lists. An absent header is the empty list, matching
Go's `Header.Get` returning `""`. -/

/-- `webhookMaxBodyBytes = 1 << 20`: the body-size ceiling. -/
def webhookMaxBodyBytes : ℕ := 1048576

/-- The signature scheme tag, Go's local constant `"sha256="` in
`verifySignature`, as its seven ASCII bytes. -/
def sigTag : List ℕ := [115, 104, 97, 50, 53, 54, 61]

/-- Go's `strings.TrimPrefix(signature, "sha256=")`: drop the tag when it
leads the header, otherwise leave the header unchanged. -/
def trimSigTag (sig : List ℕ) : List ℕ :=
  if sigTag.isPrefixOf sig then sig.drop sigTag.length else sig

/-- `syncWatchOptions.verifySignature`: accept unconditionally when no
secret is configured; otherwise require both headers and compare the
(tag-trimmed) signature with `hex(HMAC-SHA256(secret, timestamp ++ body))`.
`hmac.Equal` is byte-list equality (its constant-time execution is a
timing property outside the embedding). -/
def verifySignature (secret sig ts body : List ℕ) : Bool :=
  if secret = [] then true
  else if sig = [] ∨ ts = [] then false
  else
    let sig := trimSigTag sig
    let expected := hexEncode (hmacSha256 secret (ts ++ body))
    expected == sig

/-- `readWebhookBody`: `io.ReadAll(io.LimitReader(r.Body, webhookMaxBodyBytes))`
reads at most the ceiling and never errors on longer input — the body is
silently truncated to the first `webhookMaxBodyBytes` bytes. -/
def readWebhookBody (body : List ℕ) : List ℕ := body.take webhookMaxBodyBytes

/-- One inbound HTTP request to the webhook endpoint. -/
structure WebhookRequest where
  method : String
  sigHeader : List ℕ
  tsHeader : List ℕ
  deliveryID : List ℕ
  body : List ℕ
deriving DecidableEq

/-- What the handler answers: the HTTP status written, and the payload
offered to the delivery queue (`none` when nothing was offered). -/
structure WebhookAck where
  status : ℕ
  offered : Option (List ℕ)
deriving DecidableEq

/-- `syncWatchOptions.webhookHandler`: reject non-POST with 405, read the
(possibly truncated) body, reject a failed signature check with 401, and
otherwise offer the delivery to the queue and answer 200. -/
def webhookHandler (secret : List ℕ) (r : WebhookRequest) : WebhookAck :=
  if r.method ≠ "POST" then ⟨405, none⟩
  else
    let body := readWebhookBody r.body
    if ¬ verifySignature secret r.sigHeader r.tsHeader body then ⟨401, none⟩
    else ⟨200, some body⟩

end Cmd

namespace Notion

/-! ## Transport (internal/notion/client.go)

Durations are rationals counting nanoseconds. Go's `float64` backoff
arithmetic is idealised as exact rational arithmetic; the final
`time.Duration(delay)` truncation to whole nanoseconds is not modelled
(it only matters below one nanosecond). -/

/-- `defaultMaxRetries = 5`. -/
def defaultMaxRetries : ℕ := 5

/-- `defaultBackoffInitialDelay = 500 * time.Millisecond`, in nanoseconds. -/
def defaultBackoffInitialDelay : ℚ := 500000000

/-- `backoffFactor = 2.0`. -/
def backoffFactor : ℚ := 2

/-- `maxBackoffDelay = 30 * time.Second`, in nanoseconds. -/
def maxBackoffDelay : ℚ := 30000000000

/-- `jitterLowerBound = 0.8`. -/
def jitterLowerBound : ℚ := 4 / 5

/-- `jitterUpperBound = 1.2`. -/
def jitterUpperBound : ℚ := 6 / 5

/-- `float64MantissaBits = 53`. -/
def float64MantissaBits : ℕ := 53

/-- `randomFloat64(min, max)`: Go draws `n` uniformly below `2^53` from
`crypto/rand` and returns `min + (max-min) * n/2^53`. The draw is the
explicit argument `n`, reduced mod `2^53` as the library guarantees. -/
def randomFloat64 (lo hi : ℚ) (n : ℕ) : ℚ :=
  if hi ≤ lo then lo
  else lo + (hi - lo) * ((n % 2 ^ float64MantissaBits : ℕ) / (2 ^ float64MantissaBits : ℚ))

/-- The client's jitter provider: `randomFloat64(jitterLowerBound, jitterUpperBound)`. -/
def clientJitter (n : ℕ) : ℚ := randomFloat64 jitterLowerBound jitterUpperBound n

/-- `isRetryableStatus`: Go's switch over 429, 500, 502, 503, 504. -/
def isRetryableStatus (status : ℕ) : Bool :=
  status == 429 || status == 500 || status == 502 || status == 503 || status == 504

/-- What a `Retry-After` response header held, after Go's
`strings.TrimSpace`: absent/empty, an `strconv.Atoi` integer (possibly
negative), an HTTP date (carried as the signed `time.Until` distance), or
text neither parser accepts. -/
inductive RetryAfterHeader
  | absent
  | seconds (n : ℤ)
  | httpDate (delta : ℚ)
  | malformed
deriving DecidableEq

/-- `parseRetryAfter`, in nanoseconds: integer seconds scale by `10^9`, an
HTTP date yields `time.Until(ts)`, everything else yields 0. -/
def parseRetryAfter : RetryAfterHeader → ℚ
  | .absent => 0
  | .seconds n => (n : ℚ) * 1000000000
  | .httpDate d => d
  | .malformed => 0

/-- `Client.backoff`: sleep exactly `retryAfter` when that is positive;
otherwise sleep `base * factor^attempt * jitter`, capped at
`maxBackoffDelay`. Returns the duration given to `c.sleep`. -/
def backoffDuration (base : ℚ) (attempt : ℕ) (jitter : ℚ) (retryAfter : ℚ) : ℚ :=
  if 0 < retryAfter then retryAfter
  else
    let delay := base * backoffFactor ^ attempt * jitter
    if maxBackoffDelay < delay then maxBackoffDelay else delay

/-- The retry-relevant part of `ClientConfig` (after `NewClient` defaulting). -/
structure ClientConfig where
  BackoffBase : ℚ
  MaxRetries : ℕ
deriving DecidableEq

/-- One attempt's outcome as offered by the environment: a network-level
error from `http.Client.Do`, or an HTTP response with its status and
`Retry-After` header. -/
inductive AttemptOutcome
  | netErr
  | reply (status : ℕ) (retryAfter : RetryAfterHeader)
deriving DecidableEq

/-- The classified errors `executeWithRetries` can surface. -/
inductive TransportError
  | rateLimitCanceled
  | requestCanceled
  | httpError (status : ℕ)
  | network
  | exhaustedRetries
deriving DecidableEq

/-- The suspension/observation events of one transport call, in order: a
rate-limiter token wait (flagged when it was abandoned on cancellation),
an HTTP attempt (flagged when the in-flight request was aborted on
cancellation), and a completed backoff sleep of the given duration. -/
inductive TransportEvent
  | limiterWait (canceled : Bool)
  | httpAttempt (aborted : Bool)
  | sleptFor (d : ℚ)
deriving DecidableEq

/-- Whether the cancellation signal has fired by global event index `i`
(`none` = never canceled; `some k` = canceled from event `k` on). -/
def ctxDoneBy (cancelAt : Option ℕ) (i : ℕ) : Bool :=
  match cancelAt with
  | none => false
  | some k => k ≤ i

/-- The trace and result of one `executeWithRetries` call. -/
structure RunResult where
  events : List TransportEvent
  outcome : Option TransportError
  attemptsMade : ℕ
deriving DecidableEq

/-- The retry loop body of `Client.executeWithRetries`. Per iteration:
`beforeAttempt` waits on the rate limiter (ctx-aware: a fired cancellation
abandons the wait and returns `rate limit wait: ctx.Err()`); `http.Do`
runs the attempt (ctx-aware: cancellation aborts it and
`handleRequestError` returns the context error without retrying); the
response is classified by `evaluateResponse` (2xx success, retryable
statuses and network errors retry, everything else terminal); and on a
retry `Client.backoff` sleeps — via plain `time.Sleep`, which does NOT
consult the context. `remaining` counts loop iterations left
(`MaxRetries + 1` at entry); when it hits zero the last recorded error
(or the defensive `exhausted retries` error) is surfaced. -/
def executeLoop (cfg : ClientConfig) (outcomes : ℕ → AttemptOutcome) (jitters : ℕ → ℚ)
    (cancelAt : Option ℕ) : ℕ → ℕ → ℕ → Option TransportError → RunResult
  | 0, _, _, lastErr => ⟨[], some (lastErr.getD .exhaustedRetries), 0⟩
  | r + 1, attempt, eventIdx, _lastErr =>
    if ctxDoneBy cancelAt eventIdx then
      ⟨[.limiterWait true], some .rateLimitCanceled, 0⟩
    else if ctxDoneBy cancelAt (eventIdx + 1) then
      ⟨[.limiterWait false, .httpAttempt true], some .requestCanceled, 1⟩
    else
      match outcomes attempt with
      | .netErr =>
        let d := backoffDuration cfg.BackoffBase attempt (jitters attempt) 0
        let rest := executeLoop cfg outcomes jitters cancelAt r (attempt + 1) (eventIdx + 3)
          (some .network)
        ⟨.limiterWait false :: .httpAttempt false :: .sleptFor d :: rest.events,
          rest.outcome, rest.attemptsMade + 1⟩
      | .reply s ra =>
        if 200 ≤ s ∧ s < 300 then
          ⟨[.limiterWait false, .httpAttempt false], none, 1⟩
        else if isRetryableStatus s then
          let d := backoffDuration cfg.BackoffBase attempt (jitters attempt) (parseRetryAfter ra)
          let rest := executeLoop cfg outcomes jitters cancelAt r (attempt + 1) (eventIdx + 3)
            (some (.httpError s))
          ⟨.limiterWait false :: .httpAttempt false :: .sleptFor d :: rest.events,
            rest.outcome, rest.attemptsMade + 1⟩
        else
          ⟨[.limiterWait false, .httpAttempt false], some (.httpError s), 1⟩

/-- `Client.executeWithRetries`: run the loop from attempt 0 with
`MaxRetries + 1` iterations available. -/
def executeWithRetries (cfg : ClientConfig) (outcomes : ℕ → AttemptOutcome)
    (jitters : ℕ → ℚ) (cancelAt : Option ℕ) : RunResult :=
  executeLoop cfg outcomes jitters cancelAt (cfg.MaxRetries + 1) 0 0 none

/-- How the transport behaves when its cancellation signal fires from
event index `m` on: the call fails; at most one trailing event follows
index `m`; no further network attempt is issued (every attempt event
from `m` on is an aborted one); when the event at `m` is not a completed
backoff sleep, the run ends right at `m` with a cancellation error
(abandoned rate-limit wait, or aborted request); when the event at `m`
IS a completed backoff sleep — plain `time.Sleep`, which ignores the
context — the sleep runs to completion and then either the next
rate-limit wait observes the cancellation and returns the cancellation
error, or no attempts remained and the sleep was the run's final event
(the last recorded error is surfaced). -/
def CancelBehaviour (t : RunResult) (m : ℕ) : Prop :=
  t.outcome ≠ none ∧
  t.events.length ≤ m + 2 ∧
  (∀ i, m ≤ i → t.events.get? i ≠ some (.httpAttempt false)) ∧
  ((∀ d : ℚ, t.events.get? m ≠ some (.sleptFor d)) →
    t.events.length = m + 1 ∧
    (t.outcome = some .rateLimitCanceled ∨ t.outcome = some .requestCanceled)) ∧
  (∀ d : ℚ, t.events.get? m = some (.sleptFor d) →
    (t.events.get? (m + 1) = some (.limiterWait true) ∧
      t.outcome = some .rateLimitCanceled) ∨
    t.events.length = m + 1)

end Notion

namespace Cmd

/-! ## Change Query drain and Watch Reconciler (cmd/sync_watch.go)

Timestamps are `ℤ` (UTC nanoseconds); "now" values are explicit inputs.
The remote is a function from the call index to the `QueryDataSource`
result, generalising the test double `recordingChangeClient`; the
accumulated request list records what the loop sent. `notion.Page`
carries many payload fields in Go; only its identity matters to the
drain, so it is embedded as its `ID`. -/

/-- A result row; stands for `notion.Page`, reduced to its `ID` (the
remaining payload fields play no role in the drain or the watch). -/
structure Page where
  ID : String
deriving DecidableEq

/-- The fields of `notion.QueryDataSourceRequest` that `fetchChanges`
populates: the filter's lower-bound key (`"on_or_after"` or `"after"`),
its two timestamp bounds (`lowerKey: since`, `"on_or_before": until`),
the pagination start cursor and the page size. The fixed descending
`last_edited_time` sort accompanies every request identically. -/
structure QueryDataSourceRequest where
  filterLowerKey : String
  filterSince : ℤ
  filterUntil : ℤ
  StartCursor : String
  PageSize : ℕ
deriving DecidableEq

/-- `notion.QueryDataSourceResponse`: one page of results, the has-more
flag and the next cursor. -/
structure QueryDataSourceResponse where
  Results : List Page
  HasMore : Bool
  NextCursor : String
deriving DecidableEq

/-- `defaultPollPageSize = 100`. -/
def defaultPollPageSize : ℕ := 100

/-- The filter's lower-bound key: `"after"` when the lower bound is
exclusive, `"on_or_after"` when inclusive. -/
def watchFilterKey (lowerExclusive : Bool) : String :=
  if lowerExclusive then "after" else "on_or_after"

/-- The errors `fetchChanges` can return. -/
inductive FetchError
  | emptyDataSourceID
  | watchCanceled
  | queryFailed (msg : String)
  | fuelExhausted
deriving DecidableEq

/-- What one `fetchChanges` call produced: the page requests it issued in
order, the pages it returned, and the error, if any. -/
structure FetchResult where
  requests : List QueryDataSourceRequest
  pages : List Page
  error : Option FetchError
deriving DecidableEq

/-- Whether the watch context is done at pagination iteration `i`
(`none` = never canceled, `some k` = canceled from iteration `k` on). -/
def watchCtxDoneAt (cancelAt : Option ℕ) (i : ℕ) : Bool :=
  match cancelAt with
  | none => false
  | some k => k ≤ i

/-- The pagination loop of `fetchChanges`. Each iteration first checks
the context (mid-drain cancellation returns the pages accumulated so far
plus `watch canceled`), then issues the request with the current cursor.
A query error returns `nil` pages with the error, as the Go code does.
Results append in page order; the loop stops when the response's
has-more flag is false or its next cursor is empty. `fuel` bounds the
iterations of the (source-side unbounded) `for` loop. -/
def fetchLoop (remote : ℕ → Except String QueryDataSourceResponse) (cancelAt : Option ℕ)
    (since untl : ℤ) (lowerExclusive : Bool) :
    ℕ → ℕ → String → List Page → List QueryDataSourceRequest → FetchResult
  | 0, _, _, _, reqs => ⟨reqs, [], some .fuelExhausted⟩
  | fuel + 1, iter, cursor, acc, reqs =>
    if watchCtxDoneAt cancelAt iter then ⟨reqs, acc, some .watchCanceled⟩
    else
      let req : QueryDataSourceRequest :=
        ⟨watchFilterKey lowerExclusive, since, untl, cursor, defaultPollPageSize⟩
      match remote iter with
      | .error e => ⟨reqs ++ [req], [], some (.queryFailed e)⟩
      | .ok resp =>
        let acc := acc ++ resp.Results
        if ¬ resp.HasMore ∨ resp.NextCursor = "" then ⟨reqs ++ [req], acc, none⟩
        else fetchLoop remote cancelAt since untl lowerExclusive fuel (iter + 1)
          resp.NextCursor acc (reqs ++ [req])

/-- `fetchChanges`: guard the empty data-source ID, then drain every page
starting from the empty cursor. -/
def fetchChanges (remote : ℕ → Except String QueryDataSourceResponse) (cancelAt : Option ℕ)
    (dataSourceID : String) (since untl : ℤ) (lowerExclusive : Bool) (fuel : ℕ) : FetchResult :=
  if dataSourceID = "" then ⟨[], [], some .emptyDataSourceID⟩
  else fetchLoop remote cancelAt since untl lowerExclusive fuel 0 "" [] []

/-- The option fields of `syncWatchOptions` that the poll path reads.
Go's zero `time.Time` sentinel for an absent `--since` becomes `none`. -/
structure SyncWatchOptions where
  initialSince : Option ℤ
  lookback : ℤ
  dataSourceID : String
  suppressEmpty : Bool
deriving DecidableEq

/-- `watchWindow`: the window reported with a poll emission. -/
structure WatchWindow where
  Since : ℤ
  Until : ℤ
deriving DecidableEq

/-- The poll-sourced `watchOutput` fields: window, count and pages. -/
structure WatchOutput where
  Window : WatchWindow
  Count : ℕ
  Pages : List Page
deriving DecidableEq

/-- What one `emitPoll` call did: the drain's result, the output written
to the stream (`none` when suppressed), and the error, if any. -/
structure EmitResult where
  fetch : FetchResult
  emitted : Option WatchOutput
  error : Option FetchError
deriving DecidableEq

/-- `syncWatchOptions.emitPoll`: clamp a non-advancing upper bound to the
lower bound (`if !until.After(since) { until = since }`), drain the
window, and emit the output unless empty-suppression eats an empty
result. A drain error aborts without emitting. -/
def emitPoll (opts : SyncWatchOptions) (remote : ℕ → Except String QueryDataSourceResponse)
    (cancelAt : Option ℕ) (fuel : ℕ) (since untl : ℤ) (lowerExclusive : Bool) : EmitResult :=
  let u := if untl ≤ since then since else untl
  let fr := fetchChanges remote cancelAt opts.dataSourceID since u lowerExclusive fuel
  match fr.error with
  | some e => ⟨fr, none, some e⟩
  | none =>
    if opts.suppressEmpty ∧ fr.pages = [] then ⟨fr, none, none⟩
    else ⟨fr, some ⟨⟨since, u⟩, fr.pages.length, fr.pages⟩, none⟩

/-- The mutable watch cursor of `watchRuntime`: the last poll's recorded
upper bound and the exclusive-lower-bound flag. -/
structure WatchState where
  lastPollEnd : ℤ
  lowerExclusiveLB : Bool
deriving DecidableEq

/-- The bootstrap poll's initial lower bound: the explicit since value,
or `now - lookback` (Go's zero-time check in `watchRuntime.bootstrap`). -/
def bootstrapSince (opts : SyncWatchOptions) (now : ℤ) : ℤ :=
  match opts.initialSince with
  | some s => s
  | none => now - opts.lookback

/-- `watchRuntime.bootstrap` at wall-clock `now`: the initial lower bound
is `bootstrapSince`; the bootstrap poll runs from it (inclusive) up to
`now`; on success the cursor records `now` and switches to
exclusive-lower-bound mode. On error the run aborts with the partially
updated state. -/
def bootstrap (opts : SyncWatchOptions) (remote : ℕ → Except String QueryDataSourceResponse)
    (cancelAt : Option ℕ) (fuel : ℕ) (now : ℤ) : WatchState × EmitResult :=
  let st : WatchState := ⟨bootstrapSince opts now, false⟩
  let initialUntil := now
  let er := emitPoll opts remote cancelAt fuel st.lastPollEnd initialUntil false
  match er.error with
  | some _ => (st, er)
  | none => (⟨initialUntil, true⟩, er)

/-- `watchRuntime.pollNext` at wall-clock `now`: poll from the recorded
cursor with the recorded exclusivity up to `now`; on success advance the
cursor to `now` and keep exclusive mode. -/
def pollNext (opts : SyncWatchOptions) (remote : ℕ → Except String QueryDataSourceResponse)
    (cancelAt : Option ℕ) (fuel : ℕ) (st : WatchState) (now : ℤ) : WatchState × EmitResult :=
  let er := emitPoll opts remote cancelAt fuel st.lastPollEnd now st.lowerExclusiveLB
  match er.error with
  | some _ => (st, er)
  | none => (⟨now, true⟩, er)

/-- A remote with no changes and no further pages, the spec's "no new
data" environment. -/
def emptyRemote : ℕ → Except String QueryDataSourceResponse :=
  fun _ => .ok ⟨[], false, ""⟩

/-- The requests a drain issues over `m` iterations beginning at call
index `k` with start cursor `c`: every subsequent request carries the
previous response's next cursor. This is the specification of "page
requests follow the remote pagination cursor", proved below to coincide
with what `fetchLoop` sends. -/
def reqChain (rs : ℕ → QueryDataSourceResponse) (since untl : ℤ) (le : Bool) :
    ℕ → String → ℕ → List QueryDataSourceRequest
  | _, _, 0 => []
  | k, c, m + 1 => ⟨watchFilterKey le, since, untl, c, defaultPollPageSize⟩ ::
      reqChain rs since untl le (k + 1) (rs k).NextCursor m

/-- The results of `m` consecutive responses from call index `k`,
concatenated in page order. -/
def pageChain (rs : ℕ → QueryDataSourceResponse) : ℕ → ℕ → List Page
  | _, 0 => []
  | k, m + 1 => (rs k).Results ++ pageChain rs (k + 1) m

/-! ## Watch theorems -/

/-- When the response to the first request already reports no further
pages, the pagination loop stops after that single request. -/
theorem fetchLoop_stop (remote : ℕ → Except String QueryDataSourceResponse)
    (since untl : ℤ) (le : Bool) (f iter : ℕ) (c : String) (acc : List Page)
    (reqs : List QueryDataSourceRequest) (r0 : QueryDataSourceResponse)
    (h0 : remote iter = .ok r0) (hstop : r0.HasMore = false ∨ r0.NextCursor = "") :
    fetchLoop remote none since untl le (f + 1) iter c acc reqs =
      ⟨reqs ++ [⟨watchFilterKey le, since, untl, c, defaultPollPageSize⟩],
        acc ++ r0.Results, none⟩ := by
  have hcond : (¬ r0.HasMore ∨ r0.NextCursor = "") := by
    rcases hstop with h | h
    · exact Or.inl (by simp [h])
    · exact Or.inr h
  simp only [fetchLoop, watchCtxDoneAt, h0, Bool.false_eq_true, if_false, if_pos hcond]

/-- One poll against the empty remote: a single request for the clamped
window, no pages, no error, and an emission exactly when suppression is
off. -/
theorem emitPoll_emptyRemote (opts : SyncWatchOptions) (fuel : ℕ) (since untl : ℤ)
    (le : Bool) (hds : opts.dataSourceID ≠ "") (hfuel : 0 < fuel) :
    emitPoll opts emptyRemote none fuel since untl le =
      ⟨⟨[⟨watchFilterKey le, since, if untl ≤ since then since else untl, "",
          defaultPollPageSize⟩], [], none⟩,
       if opts.suppressEmpty then none
         else some ⟨⟨since, if untl ≤ since then since else untl⟩, 0, []⟩,
       none⟩ := by
  obtain ⟨f, rfl⟩ : ∃ f, fuel = f + 1 := ⟨fuel - 1, by omega⟩
  have hloop := fetchLoop_stop emptyRemote since (if untl ≤ since then since else untl)
    le f 0 "" [] [] ⟨[], false, ""⟩ rfl (Or.inl rfl)
  simp only [emitPoll, fetchChanges, if_neg hds, hloop, List.nil_append, List.append_nil]
  by_cases hs : opts.suppressEmpty <;> simp [hs]

/-- `pageChain` is the in-order concatenation of the consecutive
responses' result pages. -/
theorem pageChain_eq (rs : ℕ → QueryDataSourceResponse) :
    ∀ (m k : ℕ),
      pageChain rs k m = ((List.range m).map fun i => (rs (k + i)).Results).flatten := by
  intro m
  induction m with
  | zero => intro k; simp [pageChain]
  | succ m ih =>
    intro k
    rw [pageChain, ih (k + 1), List.range_succ_eq_map]
    have hfg : (fun i => (rs (k + 1 + i)).Results)
        = ((fun i => (rs (k + i)).Results) ∘ Nat.succ) := by
      funext i
      show (rs (k + 1 + i)).Results = (rs (k + (i + 1))).Results
      rw [show k + 1 + i = k + (i + 1) by omega]
    simp only [List.map_cons, List.flatten_cons, List.map_map, Nat.add_zero, hfg]

/-- `reqChain` issues exactly `m` requests. -/
theorem reqChain_length (rs : ℕ → QueryDataSourceResponse) (since untl : ℤ) (le : Bool) :
    ∀ (m k : ℕ) (c : String), (reqChain rs since untl le k c m).length = m := by
  intro m
  induction m with
  | zero => intro k c; rfl
  | succ m ih => intro k c; simp [reqChain, ih]

/-- The first request of a nonempty `reqChain` carries the start cursor. -/
theorem reqChain_get_zero (rs : ℕ → QueryDataSourceResponse) (since untl : ℤ) (le : Bool)
    (m k : ℕ) (c : String) (hm : 0 < m) :
    (reqChain rs since untl le k c m).get? 0
      = some ⟨watchFilterKey le, since, untl, c, defaultPollPageSize⟩ := by
  obtain ⟨m, rfl⟩ : ∃ m', m = m' + 1 := ⟨m - 1, by omega⟩
  rfl

/-- Request `i + 1` of a `reqChain` carries response `i`'s next cursor. -/
theorem reqChain_get_succ (rs : ℕ → QueryDataSourceResponse) (since untl : ℤ) (le : Bool) :
    ∀ (i m k : ℕ) (c : String), i + 1 < m →
      (reqChain rs since untl le k c m).get? (i + 1)
        = some ⟨watchFilterKey le, since, untl, (rs (k + i)).NextCursor,
            defaultPollPageSize⟩ := by
  intro i
  induction i with
  | zero =>
    intro m k c him
    obtain ⟨m', rfl⟩ : ∃ m', m = m' + 2 := ⟨m - 2, by omega⟩
    rw [reqChain]
    simp only [List.get?_cons_succ]
    simpa using reqChain_get_zero rs since untl le (m' + 1) (k + 1) (rs k).NextCursor
      (by omega)
  | succ i ih =>
    intro m k c him
    obtain ⟨m', rfl⟩ : ∃ m', m = m' + 1 := ⟨m - 1, by omega⟩
    rw [reqChain]
    simp only [List.get?_cons_succ]
    have h := ih m' (k + 1) (rs k).NextCursor (by omega)
    rw [show k + 1 + i = k + (i + 1) by omega] at h
    exact h

/-- The drain over a remote that keeps reporting more pages for `n`
responses and stops at response `n`: it terminates with no error, issues
the `n + 1` cursor-chained requests and accumulates all pages in order. -/
theorem fetchLoop_ok (rs : ℕ → QueryDataSourceResponse) (since untl : ℤ) (le : Bool) :
    ∀ (n k fuel : ℕ) (c : String) (acc : List Page) (reqs : List QueryDataSourceRequest),
      (∀ i, i < n → (rs (k + i)).HasMore = true ∧ (rs (k + i)).NextCursor ≠ "") →
      ((rs (k + n)).HasMore = false ∨ (rs (k + n)).NextCursor = "") →
      n < fuel →
      fetchLoop (fun i => .ok (rs i)) none since untl le fuel k c acc reqs =
        ⟨reqs ++ reqChain rs since untl le k c (n + 1),
          acc ++ pageChain rs k (n + 1), none⟩ := by
  intro n
  induction n with
  | zero =>
    intro k fuel c acc reqs _ hstop hfuel
    obtain ⟨f, rfl⟩ : ∃ f, fuel = f + 1 := ⟨fuel - 1, by omega⟩
    rw [fetchLoop_stop (fun i => .ok (rs i)) since untl le f k c acc reqs (rs k) rfl
      (by simpa using hstop)]
    simp [reqChain, pageChain]
  | succ n ih =>
    intro k fuel c acc reqs hcont hstop hfuel
    obtain ⟨f, rfl⟩ : ∃ f, fuel = f + 1 := ⟨fuel - 1, by omega⟩
    have h0 := hcont 0 (by omega)
    rw [Nat.add_zero] at h0
    have hcond : ¬ (¬ (rs k).HasMore ∨ (rs k).NextCursor = "") := by
      rintro (h | h)
      · exact h (by simp [h0.1])
      · exact h0.2 h
    have hrec := ih (k + 1) f (rs k).NextCursor (acc ++ (rs k).Results)
      (reqs ++ [⟨watchFilterKey le, since, untl, c, defaultPollPageSize⟩])
      (fun i hi => by
        have := hcont (i + 1) (by omega)
        rwa [show k + (i + 1) = k + 1 + i by omega] at this)
      (by rwa [show k + 1 + n = k + (n + 1) by omega]) (by omega)
    simp only [fetchLoop, watchCtxDoneAt, Bool.false_eq_true, if_false, if_neg hcond,
      hrec]
    simp [reqChain, pageChain, List.append_assoc]

/-- C4 (confirmed): a drain whose remote reports more pages for the
first `n` responses and stops at response `n` (has-more false or empty
next cursor) issues exactly `n + 1` requests — the first with the empty
start cursor and each later one carrying the previous response's next
cursor — terminates with no error, and returns the pages of every
response concatenated in page order. -/
theorem drain_follows_cursor (rs : ℕ → QueryDataSourceResponse) (dsID : String)
    (since untl : ℤ) (le : Bool) (n fuel : ℕ)
    (hds : dsID ≠ "")
    (hcont : ∀ i, i < n → (rs i).HasMore = true ∧ (rs i).NextCursor ≠ "")
    (hstop : (rs n).HasMore = false ∨ (rs n).NextCursor = "")
    (hfuel : n < fuel) :
    (fetchChanges (fun i => .ok (rs i)) none dsID since untl le fuel).error = none ∧
    (fetchChanges (fun i => .ok (rs i)) none dsID since untl le fuel).pages
      = ((List.range (n + 1)).map fun i => (rs i).Results).flatten ∧
    (fetchChanges (fun i => .ok (rs i)) none dsID since untl le fuel).requests.length
      = n + 1 ∧
    (fetchChanges (fun i => .ok (rs i)) none dsID since untl le fuel).requests.get? 0
      = some ⟨watchFilterKey le, since, untl, "", defaultPollPageSize⟩ ∧
    (∀ i, i < n →
      (fetchChanges (fun i => .ok (rs i)) none dsID since untl le fuel).requests.get? (i + 1)
        = some ⟨watchFilterKey le, since, untl, (rs i).NextCursor, defaultPollPageSize⟩) := by
  have hloop := fetchLoop_ok rs since untl le n 0 fuel "" [] []
    (fun i hi => by simpa using hcont i hi) (by simpa using hstop) hfuel
  rw [fetchChanges, if_neg hds, hloop]
  refine ⟨rfl, ?_, ?_, ?_, ?_⟩
  · simpa using pageChain_eq rs (n + 1) 0
  · simpa using reqChain_length rs since untl le (n + 1) 0 ""
  · simpa using reqChain_get_zero rs since untl le (n + 1) 0 "" (by omega)
  · intro i hi
    simpa using reqChain_get_succ rs since untl le i (n + 1) 0 "" (by omega)

/-- Witness for `drain_follows_cursor`: two pages chained by cursor `"c1"`. -/
theorem drain_follows_cursor_witness :
    (fetchChanges
        (fun i => .ok (if i = 0 then ⟨[⟨"p1"⟩], true, "c1"⟩ else ⟨[⟨"p2"⟩], false, ""⟩))
        none "ds" 0 9 true 2).pages = [⟨"p1"⟩, ⟨"p2"⟩] ∧
    (fetchChanges
        (fun i => .ok (if i = 0 then ⟨[⟨"p1"⟩], true, "c1"⟩ else ⟨[⟨"p2"⟩], false, ""⟩))
        none "ds" 0 9 true 2).requests.get? 1
      = some ⟨"after", 0, 9, "c1", defaultPollPageSize⟩ := by
  have h := drain_follows_cursor
    (fun i => if i = 0 then ⟨[⟨"p1"⟩], true, "c1"⟩ else ⟨[⟨"p2"⟩], false, ""⟩)
    "ds" 0 9 true 1 2 (by decide) (by decide) (by decide) (by decide)
  refine ⟨?_, ?_⟩
  · rw [h.2.1]
    decide
  · have h5 := h.2.2.2.2 0 (by decide)
    simpa [watchFilterKey] using h5

/-- The drain against a context canceled from iteration `m` on, when the
remote would have kept paginating: the first `m` iterations run, the
check before request `m + 1` observes cancellation. -/
theorem fetchLoop_canceled (rs : ℕ → QueryDataSourceResponse) (since untl : ℤ) (le : Bool) :
    ∀ (m k fuel : ℕ) (c : String) (acc : List Page) (reqs : List QueryDataSourceRequest),
      (∀ i, i < m → (rs (k + i)).HasMore = true ∧ (rs (k + i)).NextCursor ≠ "") →
      m < fuel →
      fetchLoop (fun i => .ok (rs i)) (some (k + m)) since untl le fuel k c acc reqs =
        ⟨reqs ++ reqChain rs since untl le k c m, acc ++ pageChain rs k m,
          some .watchCanceled⟩ := by
  intro m
  induction m with
  | zero =>
    intro k fuel c acc reqs _ hfuel
    obtain ⟨f, rfl⟩ : ∃ f, fuel = f + 1 := ⟨fuel - 1, by omega⟩
    simp [fetchLoop, watchCtxDoneAt, reqChain, pageChain]
  | succ m ih =>
    intro k fuel c acc reqs hcont hfuel
    obtain ⟨f, rfl⟩ : ∃ f, fuel = f + 1 := ⟨fuel - 1, by omega⟩
    have h0 := hcont 0 (by omega)
    rw [Nat.add_zero] at h0
    have hctx : watchCtxDoneAt (some (k + 1 + m)) k = false := by
      simp only [watchCtxDoneAt, decide_eq_false_iff_not]
      omega
    have hcond : ¬ (¬ (rs k).HasMore ∨ (rs k).NextCursor = "") := by
      rintro (h | h)
      · exact h (by simp [h0.1])
      · exact h0.2 h
    have hrec := ih (k + 1) f (rs k).NextCursor (acc ++ (rs k).Results)
      (reqs ++ [⟨watchFilterKey le, since, untl, c, defaultPollPageSize⟩])
      (fun i hi => by
        have := hcont (i + 1) (by omega)
        rwa [show k + (i + 1) = k + 1 + i by omega] at this)
      (by omega)
    rw [show k + (m + 1) = k + 1 + m by omega]
    simp only [fetchLoop, hctx, Bool.false_eq_true, if_false, if_neg hcond, hrec]
    simp [reqChain, pageChain, List.append_assoc]

/-- C5 (confirmed): when the cancellation signal fires from pagination
iteration `m` on (while the remote would have kept paginating), the
check before each page request stops the drain: exactly `m` requests
were issued, the pages accumulated so far are returned, and the error is
the cancellation error. -/
theorem drain_cancellation (rs : ℕ → QueryDataSourceResponse) (dsID : String)
    (since untl : ℤ) (le : Bool) (m fuel : ℕ)
    (hds : dsID ≠ "")
    (hcont : ∀ i, i < m → (rs i).HasMore = true ∧ (rs i).NextCursor ≠ "")
    (hfuel : m < fuel) :
    (fetchChanges (fun i => .ok (rs i)) (some m) dsID since untl le fuel).error
      = some .watchCanceled ∧
    (fetchChanges (fun i => .ok (rs i)) (some m) dsID since untl le fuel).pages
      = ((List.range m).map fun i => (rs i).Results).flatten ∧
    (fetchChanges (fun i => .ok (rs i)) (some m) dsID since untl le fuel).requests.length
      = m := by
  have hloop := fetchLoop_canceled rs since untl le m 0 fuel "" [] []
    (fun i hi => by simpa using hcont i hi) hfuel
  rw [Nat.zero_add] at hloop
  rw [fetchChanges, if_neg hds, hloop]
  refine ⟨rfl, ?_, ?_⟩
  · simpa using pageChain_eq rs m 0
  · simpa using reqChain_length rs since untl le m 0 ""

/-- Witness for `drain_cancellation`: cancellation from iteration 1 on
keeps the first page and stops before the second request. -/
theorem drain_cancellation_witness :
    (fetchChanges
        (fun i => .ok (if i = 0 then ⟨[⟨"p1"⟩], true, "c1"⟩ else ⟨[⟨"p2"⟩], true, "c2"⟩))
        (some 1) "ds" 0 9 true 3).error = some .watchCanceled ∧
    (fetchChanges
        (fun i => .ok (if i = 0 then ⟨[⟨"p1"⟩], true, "c1"⟩ else ⟨[⟨"p2"⟩], true, "c2"⟩))
        (some 1) "ds" 0 9 true 3).pages = [⟨"p1"⟩] ∧
    (fetchChanges
        (fun i => .ok (if i = 0 then ⟨[⟨"p1"⟩], true, "c1"⟩ else ⟨[⟨"p2"⟩], true, "c2"⟩))
        (some 1) "ds" 0 9 true 3).requests.length = 1 := by
  have h := drain_cancellation
    (fun i => if i = 0 then ⟨[⟨"p1"⟩], true, "c1"⟩ else ⟨[⟨"p2"⟩], true, "c2"⟩)
    "ds" 0 9 true 1 3 (by decide) (by decide) (by decide)
  refine ⟨h.1, ?_, h.2.2⟩
  rw [h.2.1]
  decide

/-- C1 (amended): when the bootstrap lower bound (the explicit since
value, or now minus lookback) is not after the bootstrap "now", the
bootstrap poll covers `[lower, now]` with the inclusive `"on_or_after"`
key, the cursor records `now` and switches to exclusive mode, and the
immediately following steady-state poll polls from exactly that `now`
with the exclusive `"after"` key — the second window's lower bound equals
the first window's upper bound. (Without the side condition the claim
fails: a future `--since` makes the bootstrap window clamp to
`[since, since]` while the cursor records the earlier now, see the
counterexample.) -/
theorem bootstrap_then_poll_adjacent (opts : SyncWatchOptions) (now0 now1 : ℤ) (fuel : ℕ)
    (hsup : opts.suppressEmpty = false) (hds : opts.dataSourceID ≠ "") (hfuel : 0 < fuel)
    (hsince : bootstrapSince opts now0 ≤ now0) :
    (bootstrap opts emptyRemote none fuel now0).2.emitted
      = some ⟨⟨bootstrapSince opts now0, now0⟩, 0, []⟩ ∧
    (bootstrap opts emptyRemote none fuel now0).2.fetch.requests
      = [⟨"on_or_after", bootstrapSince opts now0, now0, "", defaultPollPageSize⟩] ∧
    (bootstrap opts emptyRemote none fuel now0).1 = ⟨now0, true⟩ ∧
    (pollNext opts emptyRemote none fuel
        (bootstrap opts emptyRemote none fuel now0).1 now1).2.emitted
      = some ⟨⟨now0, if now1 ≤ now0 then now0 else now1⟩, 0, []⟩ ∧
    (pollNext opts emptyRemote none fuel
        (bootstrap opts emptyRemote none fuel now0).1 now1).2.fetch.requests
      = [⟨"after", now0, if now1 ≤ now0 then now0 else now1, "", defaultPollPageSize⟩] := by
  have hclamp : (if now0 ≤ bootstrapSince opts now0 then bootstrapSince opts now0 else now0)
      = now0 := by
    split_ifs with h
    · omega
    · rfl
  have hb := emitPoll_emptyRemote opts fuel (bootstrapSince opts now0) now0 false hds hfuel
  rw [hclamp, hsup] at hb
  simp only [Bool.false_eq_true, if_false] at hb
  have hboot : bootstrap opts emptyRemote none fuel now0 =
      (⟨now0, true⟩,
       ⟨⟨[⟨"on_or_after", bootstrapSince opts now0, now0, "", defaultPollPageSize⟩], [], none⟩,
        some ⟨⟨bootstrapSince opts now0, now0⟩, 0, []⟩, none⟩) := by
    simp only [bootstrap, hb, watchFilterKey, if_false, Bool.false_eq_true, if_neg]
  have hp := emitPoll_emptyRemote opts fuel now0 now1 true hds hfuel
  rw [hsup] at hp
  simp only [Bool.false_eq_true, if_false] at hp
  have hpoll : pollNext opts emptyRemote none fuel (⟨now0, true⟩ : WatchState) now1 =
      (⟨now1, true⟩,
       ⟨⟨[⟨"after", now0, if now1 ≤ now0 then now0 else now1, "", defaultPollPageSize⟩],
          [], none⟩,
        some ⟨⟨now0, if now1 ≤ now0 then now0 else now1⟩, 0, []⟩, none⟩) := by
    simp only [pollNext, hp, watchFilterKey, if_true]
  rw [hboot]
  rw [hpoll]
  exact ⟨rfl, rfl, rfl, rfl, rfl⟩

/-- C1 counterexample: with an explicit since of 10 and a bootstrap "now"
of 5 (a future `--since`), the bootstrap emission's window is `[10, 10]`
(clamped) but the cursor records 5, so the next poll's window is
`(5, 6]`: its lower bound 5 differs from the previous window's upper
bound 10, refuting unconditional adjacency. -/
theorem future_since_not_adjacent_cx :
    (bootstrap ⟨some 10, 1, "ds", false⟩ emptyRemote none 1 5).2.emitted
      = some ⟨⟨10, 10⟩, 0, []⟩ ∧
    (pollNext ⟨some 10, 1, "ds", false⟩ emptyRemote none 1
        (bootstrap ⟨some 10, 1, "ds", false⟩ emptyRemote none 1 5).1 6).2.emitted
      = some ⟨⟨5, 6⟩, 0, []⟩ ∧
    (5 : ℤ) ≠ (10 : ℤ) := by
  refine ⟨by decide, by decide, by decide⟩

/-- Witness for `bootstrap_then_poll_adjacent`: explicit since 3,
bootstrap now 5, next poll at 7. -/
theorem bootstrap_then_poll_adjacent_witness :
    (bootstrap ⟨some 3, 100, "ds", false⟩ emptyRemote none 1 5).2.emitted
      = some ⟨⟨3, 5⟩, 0, []⟩ ∧
    (pollNext ⟨some 3, 100, "ds", false⟩ emptyRemote none 1
        (bootstrap ⟨some 3, 100, "ds", false⟩ emptyRemote none 1 5).1 7).2.emitted
      = some ⟨⟨5, 7⟩, 0, []⟩ := by
  have h := bootstrap_then_poll_adjacent ⟨some 3, 100, "ds", false⟩ 5 7 1 rfl
    (by decide) (by decide) (by decide)
  refine ⟨by simpa [bootstrapSince] using h.1, ?_⟩
  have h4 := h.2.2.2.1
  norm_num at h4
  exact h4

/-- C8 (confirmed): a poll whose upper bound is not strictly after its
lower bound clamps the window to the single instant `[since, since]`
rather than failing, and — with the remote reporting no further pages —
issues exactly one page request whose `on_or_before` bound equals its
lower bound. -/
theorem collapsed_window_single_request (opts : SyncWatchOptions)
    (remote : ℕ → Except String QueryDataSourceResponse) (r0 : QueryDataSourceResponse)
    (since untl : ℤ) (le : Bool) (fuel : ℕ)
    (hds : opts.dataSourceID ≠ "") (hle : untl ≤ since) (hfuel : 0 < fuel)
    (h0 : remote 0 = .ok r0) (hnomore : r0.HasMore = false) :
    (emitPoll opts remote none fuel since untl le).error = none ∧
    (emitPoll opts remote none fuel since untl le).fetch.requests
      = [⟨watchFilterKey le, since, since, "", defaultPollPageSize⟩] := by
  obtain ⟨f, rfl⟩ : ∃ f, fuel = f + 1 := ⟨fuel - 1, by omega⟩
  have hloop := fetchLoop_stop remote since since le f 0 "" [] [] r0 h0 (Or.inl hnomore)
  simp only [emitPoll, if_pos hle, fetchChanges, if_neg hds, hloop, List.nil_append]
  by_cases hs : opts.suppressEmpty ∧ r0.Results = [] <;> simp [hs]

/-- Witness for `collapsed_window_single_request` with `until = 2 < 4 = since`. -/
theorem collapsed_window_single_request_witness :
    (emitPoll ⟨none, 1, "ds", false⟩ emptyRemote none 1 4 2 true).error = none ∧
    (emitPoll ⟨none, 1, "ds", false⟩ emptyRemote none 1 4 2 true).fetch.requests
      = [⟨"after", 4, 4, "", defaultPollPageSize⟩] :=
  collapsed_window_single_request ⟨none, 1, "ds", false⟩ emptyRemote ⟨[], false, ""⟩
    4 2 true 1 (by decide) (by decide) (by decide) rfl rfl

/-- C10 (confirmed, assuming the clock does not run backwards between
polls): a successful empty poll under `--suppress-empty` emits nothing,
yet the cursor still advances to that poll's upper bound `now` and stays
in exclusive mode, and the next poll's window starts exactly at that
`now` with the exclusive key — no time range is skipped or re-polled.
The bootstrap poll behaves the same way under suppression. -/
theorem suppressed_empty_poll_advances_cursor (opts : SyncWatchOptions) (st : WatchState)
    (now0 now1 now2 : ℤ) (fuel : ℕ)
    (hsup : opts.suppressEmpty = true) (hds : opts.dataSourceID ≠ "") (hfuel : 0 < fuel)
    (hmono : st.lastPollEnd ≤ now1) (hboot : bootstrapSince opts now0 ≤ now0) :
    (pollNext opts emptyRemote none fuel st now1).2.emitted = none ∧
    (pollNext opts emptyRemote none fuel st now1).2.error = none ∧
    (pollNext opts emptyRemote none fuel st now1).2.fetch.requests
      = [⟨watchFilterKey st.lowerExclusiveLB, st.lastPollEnd, now1, "", defaultPollPageSize⟩] ∧
    (pollNext opts emptyRemote none fuel st now1).1 = ⟨now1, true⟩ ∧
    (pollNext opts emptyRemote none fuel (⟨now1, true⟩ : WatchState) now2).2.fetch.requests
      = [⟨"after", now1, if now2 ≤ now1 then now1 else now2, "", defaultPollPageSize⟩] ∧
    (bootstrap opts emptyRemote none fuel now0).2.emitted = none ∧
    (bootstrap opts emptyRemote none fuel now0).1 = ⟨now0, true⟩ := by
  have hclamp1 : (if now1 ≤ st.lastPollEnd then st.lastPollEnd else now1) = now1 := by
    split_ifs with h
    · omega
    · rfl
  have hclamp0 : (if now0 ≤ bootstrapSince opts now0 then bootstrapSince opts now0 else now0)
      = now0 := by
    split_ifs with h
    · omega
    · rfl
  have h1 := emitPoll_emptyRemote opts fuel st.lastPollEnd now1 st.lowerExclusiveLB hds hfuel
  rw [hclamp1, hsup] at h1
  have h2 := emitPoll_emptyRemote opts fuel now1 now2 true hds hfuel
  rw [hsup] at h2
  have h0 := emitPoll_emptyRemote opts fuel (bootstrapSince opts now0) now0 false hds hfuel
  rw [hclamp0, hsup] at h0
  refine ⟨?_, ?_, ?_, ?_, ?_, ?_, ?_⟩
  · simp [pollNext, h1]
  · simp [pollNext, h1]
  · simp [pollNext, h1]
  · simp [pollNext, h1]
  · simp [pollNext, h2, watchFilterKey]
  · simp [bootstrap, h0]
  · simp [bootstrap, h0]

/-- Witness for `suppressed_empty_poll_advances_cursor`: cursor 2, polls
at 6 then 9, bootstrap at 5 with lookback 1. -/
theorem suppressed_empty_poll_advances_cursor_witness :
    (pollNext ⟨none, 1, "ds", true⟩ emptyRemote none 1 ⟨2, true⟩ 6).2.emitted = none ∧
    (pollNext ⟨none, 1, "ds", true⟩ emptyRemote none 1 ⟨2, true⟩ 6).1 = ⟨6, true⟩ := by
  have h := suppressed_empty_poll_advances_cursor ⟨none, 1, "ds", true⟩ ⟨2, true⟩ 5 6 9 1
    rfl (by decide) (by decide) (by decide) (by decide)
  exact ⟨h.1, h.2.2.2.1⟩

/-- `sha256` always produces 32 bytes. -/
theorem sha256_length (msg : List ℕ) : (sha256 msg).length = 32 := by
  simp [sha256, wordBytesBE]

/-- `hmacSha256` always produces 32 bytes. -/
theorem hmacSha256_length (key msg : List ℕ) : (hmacSha256 key msg).length = 32 := by
  simp [hmacSha256, sha256_length]

/-- Hex encoding doubles the byte count. -/
theorem hexEncode_length (bs : List ℕ) : (hexEncode bs).length = 2 * bs.length := by
  induction bs with
  | nil => rfl
  | cons b bs ih =>
    simp only [hexEncode, List.map_cons, List.flatten_cons, List.length_append,
      List.length_cons] at ih ⊢
    simp [hexByte] at ih ⊢
    omega

set_option maxRecDepth 100000

/-- Sanity anchor for the hash embedding: the FIPS 180-2 test vector
`SHA-256("abc")` evaluates to its known digest
`ba7816bf8f01cfea414140de5dae2223b00361a396177a9cb410ff61f20015ad`. -/
theorem sha256_vector_check :
    hexEncode (sha256 [97, 98, 99]) =
      [98, 97, 55, 56, 49, 54, 98, 102, 56, 102, 48, 49, 99, 102, 101, 97, 52, 49, 52,
       49, 52, 48, 100, 101, 53, 100, 97, 101, 50, 50, 50, 51, 98, 48, 48, 51, 54, 49,
       97, 51, 57, 54, 49, 55, 55, 97, 57, 99, 98, 52, 49, 48, 102, 102, 54, 49, 102,
       50, 48, 48, 49, 53, 97, 100] := by
  decide

/-- Trimming the scheme tag from a tagged signature leaves the payload. -/
theorem trimSigTag_tag_append (l : List ℕ) : trimSigTag (sigTag ++ l) = l := by
  have hpre : sigTag.isPrefixOf (sigTag ++ l) = true :=
    List.isPrefixOf_iff_prefix.mpr (List.prefix_append sigTag l)
  rw [trimSigTag, if_pos hpre, List.drop_left]

/-- `getD` at a freshly `set` in-range index reads the written value. -/
theorem getD_set_self (l : List ℕ) (i b : ℕ) (h : i < l.length) :
    (l.set i b).getD i 0 = b := by
  rw [List.getD_eq_getElem _ _ (by simpa using h)]
  exact List.getElem_set_self _

/-- A correctly computed, tag-framed signature verifies. -/
theorem verifySignature_correct (secret ts body : List ℕ) (hsec : secret ≠ [])
    (hts : ts ≠ []) :
    verifySignature secret (sigTag ++ hexEncode (hmacSha256 secret (ts ++ body))) ts body
      = true := by
  have hne : ¬ (sigTag ++ hexEncode (hmacSha256 secret (ts ++ body)) = [] ∨ ts = []) := by
    push_neg
    exact ⟨by simp [sigTag], hts⟩
  rw [verifySignature, if_neg hsec, if_neg hne]
  simp [trimSigTag_tag_append]

/-- A correct signature with any single byte changed fails verification:
a change inside the `"sha256="` tag leaves an untrimmed 71-byte header
that cannot equal the 64-byte expected hex digest, and a change in the
hex digest part differs from the expected digest at that position. -/
theorem verifySignature_flip (secret ts body : List ℕ) (i b : ℕ)
    (hsec : secret ≠ [])
    (hi : i < (sigTag ++ hexEncode (hmacSha256 secret (ts ++ body))).length)
    (hb : b ≠ (sigTag ++ hexEncode (hmacSha256 secret (ts ++ body))).getD i 0) :
    verifySignature secret
      ((sigTag ++ hexEncode (hmacSha256 secret (ts ++ body))).set i b) ts body = false := by
  have hexlen : (hexEncode (hmacSha256 secret (ts ++ body))).length = 64 := by
    rw [hexEncode_length, hmacSha256_length]
  by_cases hor : (sigTag ++ hexEncode (hmacSha256 secret (ts ++ body))).set i b = [] ∨ ts = []
  · rw [verifySignature, if_neg hsec, if_pos hor]
  · rw [verifySignature, if_neg hsec, if_neg hor]
    rcases Nat.lt_or_ge i 7 with h7 | h7
    · have hset : (sigTag ++ hexEncode (hmacSha256 secret (ts ++ body))).set i b
          = sigTag.set i b ++ hexEncode (hmacSha256 secret (ts ++ body)) :=
        List.set_append_left _ _ (by simp [sigTag]; omega)
      have hpre : ¬ sigTag.isPrefixOf
          (sigTag.set i b ++ hexEncode (hmacSha256 secret (ts ++ body))) = true := by
        intro hp
        have hip := List.isPrefixOf_iff_prefix.mp hp
        have htake := List.prefix_iff_eq_take.mp hip
        rw [show sigTag.length = (sigTag.set i b).length by simp] at htake
        rw [List.take_left] at htake
        have := congrArg (fun l => l.getD i 0) htake
        simp only at this
        rw [getD_set_self sigTag i b (by simp [sigTag]; omega)] at this
        apply hb
        rw [List.getD_append _ _ _ _ (by simp [sigTag]; omega)]
        exact this.symm
      rw [hset, trimSigTag, if_neg hpre]
      apply beq_eq_false_iff_ne.mpr
      intro heq
      have := congrArg List.length heq
      simp only [List.length_append, List.length_set, hexlen] at this
      simp [sigTag] at this
    · have hset : (sigTag ++ hexEncode (hmacSha256 secret (ts ++ body))).set i b
          = sigTag ++ (hexEncode (hmacSha256 secret (ts ++ body))).set (i - sigTag.length) b :=
        List.set_append_right _ _ (by simp [sigTag]; omega)
      rw [hset, trimSigTag_tag_append]
      apply beq_eq_false_iff_ne.mpr
      intro heq
      have hrange : i - sigTag.length < (hexEncode (hmacSha256 secret (ts ++ body))).length := by
        rw [hexlen]
        rw [List.length_append, hexlen] at hi
        simp only [sigTag, List.length_cons, List.length_nil]
        simp only [sigTag, List.length_cons, List.length_nil] at hi
        omega
      have := congrArg (fun l => l.getD (i - sigTag.length) 0) heq
      simp only at this
      rw [getD_set_self _ _ _ hrange] at this
      apply hb
      rw [← this, List.getD_append_right _ _ _ _ (by simp [sigTag]; omega)]

/-- C7 (confirmed): with a secret configured, a POST delivery whose
signature header is `"sha256=" ++ hex(HMAC-SHA256(secret, ts ++ body))`
is accepted — HTTP 200 with the delivery offered to the queue — and the
same payload with any one byte of the signature header changed is
rejected with HTTP 401 and not queued. (The body must be within the
receiver's size ceiling; beyond it the handler verifies a truncated
body.) -/
theorem webhook_signature_roundtrip (secret ts body did : List ℕ) (i b : ℕ)
    (hsec : secret ≠ []) (hts : ts ≠ [])
    (hlen : body.length ≤ webhookMaxBodyBytes)
    (hi : i < (sigTag ++ hexEncode (hmacSha256 secret (ts ++ body))).length)
    (hb : b ≠ (sigTag ++ hexEncode (hmacSha256 secret (ts ++ body))).getD i 0) :
    webhookHandler secret
        ⟨"POST", sigTag ++ hexEncode (hmacSha256 secret (ts ++ body)), ts, did, body⟩
      = ⟨200, some body⟩ ∧
    webhookHandler secret
        ⟨"POST", (sigTag ++ hexEncode (hmacSha256 secret (ts ++ body))).set i b, ts, did,
          body⟩
      = ⟨401, none⟩ := by
  have hbody : readWebhookBody body = body := List.take_of_length_le hlen
  constructor
  · simp [webhookHandler, hbody, verifySignature_correct secret ts body hsec hts]
  · simp [webhookHandler, hbody, verifySignature_flip secret ts body i b hsec hi hb]

/-- Witness for `webhook_signature_roundtrip`: secret `"k"`, timestamp
`"1"`, empty body, flipping byte 0 of the header (the `'s'` of the tag). -/
theorem webhook_signature_roundtrip_witness :
    webhookHandler [107]
        ⟨"POST", sigTag ++ hexEncode (hmacSha256 [107] ([49] ++ [])), [49], [], []⟩
      = ⟨200, some []⟩ ∧
    webhookHandler [107]
        ⟨"POST", (sigTag ++ hexEncode (hmacSha256 [107] ([49] ++ []))).set 0 0, [49], [],
          []⟩
      = ⟨401, none⟩ :=
  webhook_signature_roundtrip [107] [49] [] [] 0 0 (by decide) (by decide) (by decide)
    (by rw [List.length_append, hexEncode_length, hmacSha256_length]; norm_num)
    (by decide)

/-- C9: the push receiver does not reject an oversized body. With no
secret configured, a POST whose body exceeds `webhookMaxBodyBytes` by
one byte is answered 200 and its delivery is queued — with the payload
silently truncated to the first `webhookMaxBodyBytes` bytes, because
`readWebhookBody` reads through `io.LimitReader`, which truncates
instead of failing. -/
theorem oversized_body_truncated_not_rejected :
    webhookHandler [] ⟨"POST", [], [], [], List.replicate (webhookMaxBodyBytes + 1) 97⟩
      = ⟨200, some (List.replicate webhookMaxBodyBytes 97)⟩ := by
  have htake : (List.replicate (webhookMaxBodyBytes + 1) 97).take webhookMaxBodyBytes
      = List.replicate webhookMaxBodyBytes 97 := by
    rw [List.take_replicate]
    congr 1
  simp [webhookHandler, readWebhookBody, verifySignature, htake]

end Cmd

namespace Notion

/-! ## Transport theorems -/

/-- The retryable status set is exactly 429, 500, 502, 503, 504. -/
theorem isRetryable_iff (s : ℕ) :
    isRetryableStatus s = true ↔ (s = 429 ∨ s = 500 ∨ s = 502 ∨ s = 503 ∨ s = 504) := by
  simp [isRetryableStatus]
  tauto

/-- With every response bearing the same retryable status and no
cancellation, each remaining iteration retries, so `r` iterations make
`r` attempts and surface that status's error. -/
theorem executeLoop_retryable (cfg : ClientConfig) (s : ℕ) (ra : RetryAfterHeader)
    (js : ℕ → ℚ) (hs : isRetryableStatus s = true) :
    ∀ (r attempt e : ℕ),
      (executeLoop cfg (fun _ => .reply s ra) js none r attempt e
        (some (.httpError s))).attemptsMade = r ∧
      (executeLoop cfg (fun _ => .reply s ra) js none r attempt e
        (some (.httpError s))).outcome = some (.httpError s) := by
  intro r
  induction r with
  | zero => intro attempt e; simp [executeLoop]
  | succ r ih =>
    intro attempt e
    have hnot : ¬ (200 ≤ s ∧ s < 300) := by
      rcases (isRetryable_iff s).mp hs with h | h | h | h | h <;> omega
    simp only [executeLoop, ctxDoneBy, if_neg hnot, if_pos hs, Bool.false_eq_true,
      if_false]
    exact ⟨by rw [(ih (attempt + 1) (e + 3)).1], (ih (attempt + 1) (e + 3)).2⟩

/-- C3 (amended): the transport retries exactly on the statuses 429, 500,
502, 503 and 504 while attempts remain — with such a status on every
response, all `MaxRetries + 1` attempts are made and that status's error
is surfaced on exhaustion — and every 4xx status other than 429 is
terminal: exactly one attempt is made and the error surfaced
immediately. (The claim's "429 or any 5xx" set is refuted by 501, see the
counterexample.) -/
theorem retry_status_policy (cfg : ClientConfig) (s : ℕ) (ra : RetryAfterHeader)
    (js : ℕ → ℚ) :
    (isRetryableStatus s = true ↔ (s = 429 ∨ s = 500 ∨ s = 502 ∨ s = 503 ∨ s = 504)) ∧
    (isRetryableStatus s = true →
      (executeWithRetries cfg (fun _ => .reply s ra) js none).attemptsMade = cfg.MaxRetries + 1 ∧
      (executeWithRetries cfg (fun _ => .reply s ra) js none).outcome = some (.httpError s)) ∧
    (400 ≤ s → s < 500 → s ≠ 429 →
      (executeWithRetries cfg (fun _ => .reply s ra) js none).attemptsMade = 1 ∧
      (executeWithRetries cfg (fun _ => .reply s ra) js none).outcome = some (.httpError s)) := by
  refine ⟨isRetryable_iff s, fun hs => ?_, fun h4 h5 h429 => ?_⟩
  · have hnot : ¬ (200 ≤ s ∧ s < 300) := by
      rcases (isRetryable_iff s).mp hs with h | h | h | h | h <;> omega
    have hrec := executeLoop_retryable cfg s ra js hs cfg.MaxRetries 1 3
    simp only [executeWithRetries, executeLoop, ctxDoneBy, if_neg hnot, if_pos hs,
      Bool.false_eq_true, if_false]
    exact ⟨by rw [hrec.1], hrec.2⟩
  · have hnot : ¬ (200 ≤ s ∧ s < 300) := by omega
    have hs : ¬ isRetryableStatus s = true := by
      rw [isRetryable_iff]; omega
    simp [executeWithRetries, executeLoop, ctxDoneBy, if_neg hnot, if_neg hs]

/-- C3 counterexample: 501 is a 5xx status, yet the transport makes
exactly one attempt on it and surfaces the error — it is not in
`isRetryableStatus`'s switch, refuting "retries exactly when the status
is 429 or a 5xx status". -/
theorem status501_not_retried_cx :
    (executeWithRetries ⟨500000000, 5⟩ (fun _ => .reply 501 .absent)
      (fun _ => 1) none).attemptsMade = 1 ∧
    (executeWithRetries ⟨500000000, 5⟩ (fun _ => .reply 501 .absent)
      (fun _ => 1) none).outcome = some (.httpError 501) ∧
    ((500 : ℕ) ≤ 501 ∧ (501 : ℕ) ≤ 599 ∧ (501 : ℕ) ≠ 429) := by
  refine ⟨by decide, by decide, by omega⟩

/-- Witness for `retry_status_policy`: 429 is retried to exhaustion
(3 attempts at `MaxRetries = 2`), 404 makes exactly one attempt. -/
theorem retry_status_policy_witness :
    (executeWithRetries ⟨500000000, 2⟩ (fun _ => .reply 429 .absent)
      (fun _ => 1) none).attemptsMade = 3 ∧
    (executeWithRetries ⟨500000000, 2⟩ (fun _ => .reply 404 .absent)
      (fun _ => 1) none).attemptsMade = 1 :=
  ⟨((retry_status_policy ⟨500000000, 2⟩ 429 .absent (fun _ => 1)).2.1 (by decide)).1,
   ((retry_status_policy ⟨500000000, 2⟩ 404 .absent (fun _ => 1)).2.2 (by omega) (by omega)
      (by omega)).1⟩

/-- C2 (amended): a parsed `Retry-After` of `N ≥ 1` seconds makes the
retry sleep exactly `N` seconds regardless of the jitter draw; a
retryable response without a parsed delay sleeps
`base * factor^attempt * jitter` capped at `maxBackoffDelay`, with the
jitter draw always inside the band `[0.8, 1.2]`. (At `N = 0` the code's
`retryAfter > 0` guard falls through to the jittered backoff instead of
sleeping zero, see the counterexample — hence `N ≥ 1`.) -/
theorem backoff_retry_after_and_jitter (base : ℚ) (attempt : ℕ) (j : ℚ) (n : ℕ) (N : ℤ)
    (hN : 1 ≤ N) :
    backoffDuration base attempt j (parseRetryAfter (.seconds N)) = (N : ℚ) * 1000000000 ∧
    backoffDuration base attempt (clientJitter n) (parseRetryAfter .absent)
      = min (base * backoffFactor ^ attempt * clientJitter n) maxBackoffDelay ∧
    jitterLowerBound ≤ clientJitter n ∧ clientJitter n ≤ jitterUpperBound := by
  have hfrac0 : (0 : ℚ) ≤ ((n % 2 ^ float64MantissaBits : ℕ) : ℚ) /
      ((2 : ℚ) ^ float64MantissaBits) := by positivity
  have hfrac1 : ((n % 2 ^ float64MantissaBits : ℕ) : ℚ) /
      ((2 : ℚ) ^ float64MantissaBits) ≤ 1 := by
    rw [div_le_one (by positivity)]
    have h := (Nat.mod_lt n (show 0 < 2 ^ float64MantissaBits by positivity)).le
    exact_mod_cast h
  have hjitter : clientJitter n =
      jitterLowerBound + (jitterUpperBound - jitterLowerBound) *
        (((n % 2 ^ float64MantissaBits : ℕ) : ℚ) / ((2 : ℚ) ^ float64MantissaBits)) := by
    rw [clientJitter, randomFloat64, if_neg]
    rw [jitterUpperBound, jitterLowerBound]
    norm_num
  refine ⟨?_, ?_, ?_, ?_⟩
  · have hN1 : (1 : ℚ) ≤ (N : ℚ) := by exact_mod_cast hN
    have hpos : (0 : ℚ) < parseRetryAfter (.seconds N) := by
      simp only [parseRetryAfter]
      nlinarith
    rw [backoffDuration, if_pos hpos]
    simp [parseRetryAfter]
  · rw [backoffDuration, if_neg (by simp [parseRetryAfter])]
    simp only [parseRetryAfter]
    rcases lt_or_le maxBackoffDelay (base * backoffFactor ^ attempt * clientJitter n) with h | h
    · rw [if_pos h, min_eq_right h.le]
    · rw [if_neg (not_lt.mpr h), min_eq_left h]
  · rw [hjitter, jitterLowerBound, jitterUpperBound]
    nlinarith
  · rw [hjitter, jitterLowerBound, jitterUpperBound]
    nlinarith

/-- C2 counterexample: a retryable 429 carrying `Retry-After: 0` — an
explicit delay of `N = 0` seconds — does not sleep 0 seconds: the parsed
delay fails the `retryAfter > 0` guard and the transport sleeps the
jittered backoff (here 0.4 s) instead. -/
theorem retry_after_zero_cx :
    parseRetryAfter (.seconds 0) = 0 ∧
    backoffDuration defaultBackoffInitialDelay 0 (clientJitter 0) (parseRetryAfter (.seconds 0))
      = 400000000 ∧
    (400000000 : ℚ) ≠ (0 : ℚ) * 1000000000 := by
  refine ⟨by norm_num [parseRetryAfter], ?_, by norm_num⟩
  norm_num [parseRetryAfter, backoffDuration, clientJitter, randomFloat64,
    defaultBackoffInitialDelay, maxBackoffDelay, jitterLowerBound, jitterUpperBound,
    backoffFactor, float64MantissaBits]

/-- Witness for `backoff_retry_after_and_jitter` at `base = 0.5 s`,
`attempt = 0`, arbitrary jitter 7, draw 5, `N = 3`. -/
theorem backoff_retry_after_and_jitter_witness :
    (1 : ℤ) ≤ 3 ∧
    (backoffDuration 500000000 0 7 (parseRetryAfter (.seconds 3)) = (3 : ℚ) * 1000000000 ∧
     backoffDuration 500000000 0 (clientJitter 5) (parseRetryAfter .absent)
       = min (500000000 * backoffFactor ^ 0 * clientJitter 5) maxBackoffDelay ∧
     jitterLowerBound ≤ clientJitter 5 ∧ clientJitter 5 ≤ jitterUpperBound) :=
  ⟨by norm_num, backoff_retry_after_and_jitter 500000000 0 7 5 3 (by norm_num)⟩

/-- A context already canceled before an iteration starts stops that
iteration at the rate-limit wait. -/
theorem executeLoop_cancel_now (cfg : ClientConfig) (outs : ℕ → AttemptOutcome)
    (js : ℕ → ℚ) (k r attempt e : ℕ) (le : Option TransportError)
    (hr : r ≠ 0) (he : k ≤ e) :
    executeLoop cfg outs js (some k) r attempt e le
      = ⟨[.limiterWait true], some .rateLimitCanceled, 0⟩ := by
  obtain ⟨r, rfl⟩ : ∃ r', r = r' + 1 := ⟨r - 1, by omega⟩
  have hctx : ctxDoneBy (some k) e = true := by
    simp only [ctxDoneBy, decide_eq_true_eq]
    omega
  simp [executeLoop, hctx]

/-- Cancellation observed at the rate-limit wait itself. -/
theorem cancelBehaviour_wait :
    CancelBehaviour ⟨[.limiterWait true], some .rateLimitCanceled, 0⟩ 0 := by
  refine ⟨by simp, by simp, ?_, fun _ => ⟨rfl, Or.inl rfl⟩, ?_⟩
  · intro i _
    rcases i with _ | i
    · simp
    · simp [List.get?]
  · intro d hd
    simp at hd

/-- Cancellation observed while the request was in flight. -/
theorem cancelBehaviour_attempt :
    CancelBehaviour ⟨[.limiterWait false, .httpAttempt true], some .requestCanceled, 1⟩ 1 := by
  refine ⟨by simp, by simp, ?_, fun _ => ⟨rfl, Or.inr rfl⟩, ?_⟩
  · intro i _
    rcases i with _ | _ | i
    · simp
    · simp
    · simp [List.get?]
  · intro d hd
    simp at hd

/-- Cancellation during the final backoff sleep: the sleep completes and
the recorded error is surfaced (no attempts remained). -/
theorem cancelBehaviour_final_sleep (d : ℚ) (o : TransportError) (n : ℕ) :
    CancelBehaviour ⟨[.limiterWait false, .httpAttempt false, .sleptFor d], some o, n⟩ 2 := by
  refine ⟨by simp, by simp, ?_, fun h => absurd rfl (h d), ?_⟩
  · intro i _
    rcases i with _ | _ | _ | i
    · omega
    · omega
    · simp
    · simp [List.get?]
  · intro d' _
    right
    rfl

/-- Cancellation during a mid-run backoff sleep: the sleep completes,
then the next rate-limit wait observes the cancellation. -/
theorem cancelBehaviour_sleep_then_wait (d : ℚ) (n : ℕ) :
    CancelBehaviour ⟨[.limiterWait false, .httpAttempt false, .sleptFor d,
      .limiterWait true], some .rateLimitCanceled, n⟩ 2 := by
  refine ⟨by simp, by simp, ?_, fun h => absurd rfl (h d), ?_⟩
  · intro i _
    rcases i with _ | _ | _ | _ | i
    · omega
    · omega
    · simp
    · simp
    · simp [List.get?]
  · intro d' _
    left
    exact ⟨rfl, rfl⟩

/-- `CancelBehaviour` lifts across one completed retry iteration (wait,
attempt, sleep) in front of the remaining run. -/
theorem cancelBehaviour_lift (rest : RunResult) (m : ℕ) (d : ℚ) (n : ℕ)
    (h : CancelBehaviour rest m) :
    CancelBehaviour ⟨.limiterWait false :: .httpAttempt false :: .sleptFor d :: rest.events,
      rest.outcome, n⟩ (m + 3) := by
  obtain ⟨h1, h2, h3, h4, h5⟩ := h
  refine ⟨h1, ?_, ?_, ?_, ?_⟩
  · simp only [List.length_cons]
    omega
  · intro i hi
    rcases i with _ | _ | _ | i
    · exact absurd hi (by omega)
    · exact absurd hi (by omega)
    · simp
    · exact h3 i (by omega)
  · intro hnd
    have hrest : ∀ d' : ℚ, rest.events.get? m ≠ some (.sleptFor d') := fun d' => hnd d'
    obtain ⟨hl, ho⟩ := h4 hrest
    refine ⟨?_, ho⟩
    simp only [List.length_cons, hl]
  · intro d' hd
    rcases h5 d' hd with ⟨ha, hb⟩ | hl
    · exact Or.inl ⟨ha, hb⟩
    · right
      simp only [List.length_cons, hl]

/-- One loop iteration with live context and a network error: wait,
attempt, backoff sleep, then the remaining run. -/
theorem executeLoop_step_net (cfg : ClientConfig) (outs : ℕ → AttemptOutcome)
    (js : ℕ → ℚ) (ca : Option ℕ) (r attempt e : ℕ) (le : Option TransportError)
    (h0 : ctxDoneBy ca e = false) (h1 : ctxDoneBy ca (e + 1) = false)
    (houts : outs attempt = .netErr) :
    executeLoop cfg outs js ca (r + 1) attempt e le =
      ⟨.limiterWait false :: .httpAttempt false ::
        .sleptFor (backoffDuration cfg.BackoffBase attempt (js attempt) 0) ::
        (executeLoop cfg outs js ca r (attempt + 1) (e + 3) (some .network)).events,
       (executeLoop cfg outs js ca r (attempt + 1) (e + 3) (some .network)).outcome,
       (executeLoop cfg outs js ca r (attempt + 1) (e + 3) (some .network)).attemptsMade
         + 1⟩ := by
  conv_lhs => rw [executeLoop]
  rw [h0, h1, houts]
  simp only [Bool.false_eq_true, if_false]

/-- One loop iteration with live context and a retryable status: wait,
attempt, backoff sleep, then the remaining run. -/
theorem executeLoop_step_retry (cfg : ClientConfig) (outs : ℕ → AttemptOutcome)
    (js : ℕ → ℚ) (ca : Option ℕ) (r attempt e : ℕ) (le : Option TransportError)
    (s : ℕ) (ra : RetryAfterHeader)
    (h0 : ctxDoneBy ca e = false) (h1 : ctxDoneBy ca (e + 1) = false)
    (houts : outs attempt = .reply s ra) (hsucc : ¬ (200 ≤ s ∧ s < 300))
    (hret : isRetryableStatus s = true) :
    executeLoop cfg outs js ca (r + 1) attempt e le =
      ⟨.limiterWait false :: .httpAttempt false ::
        .sleptFor (backoffDuration cfg.BackoffBase attempt (js attempt)
          (parseRetryAfter ra)) ::
        (executeLoop cfg outs js ca r (attempt + 1) (e + 3) (some (.httpError s))).events,
       (executeLoop cfg outs js ca r (attempt + 1) (e + 3) (some (.httpError s))).outcome,
       (executeLoop cfg outs js ca r (attempt + 1) (e + 3)
         (some (.httpError s))).attemptsMade + 1⟩ := by
  conv_lhs => rw [executeLoop]
  rw [h0, h1, houts]
  simp only [Bool.false_eq_true, if_false, if_neg hsucc, if_pos hret]

/-- The retry loop under a context canceled from global event index
`e + m` on, provided index `m` lies inside the produced trace, exhibits
`CancelBehaviour` at `m`. -/
theorem executeLoop_canceled_run (cfg : ClientConfig) (outs : ℕ → AttemptOutcome)
    (js : ℕ → ℚ) :
    ∀ (r m attempt e : ℕ) (le : Option TransportError),
      m < (executeLoop cfg outs js (some (e + m)) r attempt e le).events.length →
      CancelBehaviour (executeLoop cfg outs js (some (e + m)) r attempt e le) m := by
  intro r
  induction r with
  | zero =>
    intro m attempt e le hm
    simp [executeLoop] at hm
  | succ r ih =>
    intro m attempt e le hm
    rcases Nat.lt_or_ge m 3 with h3 | h3
    · interval_cases m
      · rw [Nat.add_zero] at hm ⊢
        rw [executeLoop_cancel_now cfg outs js e (r + 1) attempt e le (by omega)
          (le_refl e)]
        exact cancelBehaviour_wait
      · have hc0 : ctxDoneBy (some (e + 1)) e = false := by
          simp only [ctxDoneBy, decide_eq_false_iff_not]
          omega
        have hc1 : ctxDoneBy (some (e + 1)) (e + 1) = true := by
          simp [ctxDoneBy]
        have ht : executeLoop cfg outs js (some (e + 1)) (r + 1) attempt e le
            = ⟨[.limiterWait false, .httpAttempt true], some .requestCanceled, 1⟩ := by
          conv_lhs => rw [executeLoop]
          rw [hc0, hc1]
          simp
        rw [ht]
        exact cancelBehaviour_attempt
      · have hc0 : ctxDoneBy (some (e + 2)) e = false := by
          simp only [ctxDoneBy, decide_eq_false_iff_not]
          omega
        have hc1 : ctxDoneBy (some (e + 2)) (e + 1) = false := by
          simp only [ctxDoneBy, decide_eq_false_iff_not]
          omega
        rcases houts : outs attempt with _ | ⟨s, ra⟩
        · rw [executeLoop_step_net cfg outs js (some (e + 2)) r attempt e le hc0 hc1 houts]
          rcases r with _ | r
          · rw [show executeLoop cfg outs js (some (e + 2)) 0 (attempt + 1) (e + 3)
                (some .network) = ⟨[], some .network, 0⟩ from rfl]
            exact cancelBehaviour_final_sleep _ _ _
          · rw [executeLoop_cancel_now cfg outs js (e + 2) (r + 1) (attempt + 1) (e + 3)
              (some .network) (by omega) (by omega)]
            exact cancelBehaviour_sleep_then_wait _ _
        · by_cases hsucc : 200 ≤ s ∧ s < 300
          · have ht : executeLoop cfg outs js (some (e + 2)) (r + 1) attempt e le
                = ⟨[.limiterWait false, .httpAttempt false], none, 1⟩ := by
              conv_lhs => rw [executeLoop]
              rw [hc0, hc1, houts]
              simp only [Bool.false_eq_true, if_false, if_pos hsucc]
            rw [ht] at hm
            exact absurd hm (by simp)
          · by_cases hret : isRetryableStatus s
            · rw [executeLoop_step_retry cfg outs js (some (e + 2)) r attempt e le s ra
                hc0 hc1 houts hsucc hret]
              rcases r with _ | r
              · rw [show executeLoop cfg outs js (some (e + 2)) 0 (attempt + 1) (e + 3)
                    (some (.httpError s)) = ⟨[], some (.httpError s), 0⟩ from rfl]
                exact cancelBehaviour_final_sleep _ _ _
              · rw [executeLoop_cancel_now cfg outs js (e + 2) (r + 1) (attempt + 1)
                  (e + 3) (some (.httpError s)) (by omega) (by omega)]
                exact cancelBehaviour_sleep_then_wait _ _
            · have ht : executeLoop cfg outs js (some (e + 2)) (r + 1) attempt e le
                  = ⟨[.limiterWait false, .httpAttempt false], some (.httpError s), 1⟩ := by
                conv_lhs => rw [executeLoop]
                rw [hc0, hc1, houts]
                simp only [Bool.false_eq_true, if_false, if_neg hsucc, if_neg hret]
              rw [ht] at hm
              exact absurd hm (by simp)
    · obtain ⟨m, rfl⟩ : ∃ m', m = m' + 3 := ⟨m - 3, by omega⟩
      have hkey : e + (m + 3) = e + 3 + m := by omega
      rw [hkey] at hm ⊢
      have hc0 : ctxDoneBy (some (e + 3 + m)) e = false := by
        simp only [ctxDoneBy, decide_eq_false_iff_not]
        omega
      have hc1 : ctxDoneBy (some (e + 3 + m)) (e + 1) = false := by
        simp only [ctxDoneBy, decide_eq_false_iff_not]
        omega
      rcases houts : outs attempt with _ | ⟨s, ra⟩
      · rw [executeLoop_step_net cfg outs js (some (e + 3 + m)) r attempt e le hc0 hc1
          houts] at hm ⊢
        have hm' : m < (executeLoop cfg outs js (some (e + 3 + m)) r (attempt + 1)
            (e + 3) (some .network)).events.length := by
          simp only [List.length_cons] at hm
          omega
        exact cancelBehaviour_lift _ m _ _ (ih m (attempt + 1) (e + 3) (some .network) hm')
      · by_cases hsucc : 200 ≤ s ∧ s < 300
        · have ht : executeLoop cfg outs js (some (e + 3 + m)) (r + 1) attempt e le
              = ⟨[.limiterWait false, .httpAttempt false], none, 1⟩ := by
            conv_lhs => rw [executeLoop]
            rw [hc0, hc1, houts]
            simp only [Bool.false_eq_true, if_false, if_pos hsucc]
          rw [ht] at hm
          exact absurd hm (by simp)
        · by_cases hret : isRetryableStatus s
          · rw [executeLoop_step_retry cfg outs js (some (e + 3 + m)) r attempt e le s ra
              hc0 hc1 houts hsucc hret] at hm ⊢
            have hm' : m < (executeLoop cfg outs js (some (e + 3 + m)) r (attempt + 1)
                (e + 3) (some (.httpError s))).events.length := by
              simp only [List.length_cons] at hm
              omega
            exact cancelBehaviour_lift _ m _ _
              (ih m (attempt + 1) (e + 3) (some (.httpError s)) hm')
          · have ht : executeLoop cfg outs js (some (e + 3 + m)) (r + 1) attempt e le
                = ⟨[.limiterWait false, .httpAttempt false], some (.httpError s), 1⟩ := by
              conv_lhs => rw [executeLoop]
              rw [hc0, hc1, houts]
              simp only [Bool.false_eq_true, if_false, if_neg hsucc, if_neg hret]
            rw [ht] at hm
            exact absurd hm (by simp)

/-- C6 (amended): when the cancellation signal fires from event index
`k` of a transport call on (and the run was still in progress at `k`),
the call fails and no further network attempt is issued; a fired
cancellation abandons a rate-limit wait immediately and aborts an
in-flight request immediately, returning a cancellation error — but a
backoff sleep between retries runs via plain `time.Sleep`, which does
not consult the context: it always completes, and the cancellation error
is only returned at the next rate-limit wait (or, when no attempts
remained, the last recorded error is returned after the sleep). The
claim's "abandoned immediately" is refuted for the backoff sleep by the
counterexample. -/
theorem cancellation_stops_retries (cfg : ClientConfig) (outs : ℕ → AttemptOutcome)
    (js : ℕ → ℚ) (k : ℕ)
    (hk : k < (executeWithRetries cfg outs js (some k)).events.length) :
    CancelBehaviour (executeWithRetries cfg outs js (some k)) k := by
  have h := executeLoop_canceled_run cfg outs js (cfg.MaxRetries + 1) k 0 0 none
  rw [Nat.zero_add] at h
  exact h hk

/-- C6 counterexample: cancellation fires at event index 2, the backoff
sleep after a 500 response — yet the full 0.5 s sleep still appears in
the trace as a completed event, followed by the rate-limit wait that
finally observes the cancellation: the sleep was not abandoned. -/
theorem sleep_not_canceled_cx :
    (executeWithRetries ⟨500000000, 1⟩ (fun _ => .reply 500 .absent) (fun _ => 1)
        (some 2)).events
      = [.limiterWait false, .httpAttempt false, .sleptFor 500000000, .limiterWait true] ∧
    (executeWithRetries ⟨500000000, 1⟩ (fun _ => .reply 500 .absent) (fun _ => 1)
        (some 2)).outcome = some .rateLimitCanceled := by
  constructor
  · simp [executeWithRetries, executeLoop, ctxDoneBy, backoffDuration, parseRetryAfter,
      isRetryableStatus, backoffFactor, maxBackoffDelay]
    norm_num
  · simp [executeWithRetries, executeLoop, ctxDoneBy, isRetryableStatus]

/-- Witness for `cancellation_stops_retries`: cancellation from event 0
on — the first rate-limit wait is abandoned. -/
theorem cancellation_stops_retries_witness :
    0 < (executeWithRetries ⟨1, 1⟩ (fun _ => .reply 500 .absent) (fun _ => 1)
        (some 0)).events.length ∧
    CancelBehaviour (executeWithRetries ⟨1, 1⟩ (fun _ => .reply 500 .absent) (fun _ => 1)
        (some 0)) 0 :=
  ⟨by decide, cancellation_stops_retries ⟨1, 1⟩ (fun _ => .reply 500 .absent) (fun _ => 1)
    0 (by decide)⟩

end Notion
